import Mathlib

/-!
Shallow embedding of the RealSense viewer examples
(`realsense_viewer.rs` and `realsense_3d_viewer.rs`).

The Rust `f32` arithmetic of the colour-mapping and point-cloud code is
modelled by exact rational arithmetic (`ℚ`); a Rust `as u8` cast of an
`f32` is modelled by truncation towards zero saturated to `[0, 255]`.
Rust `Vec<f32>` buffers written by index are modelled as functions
`ℕ → ℚ` together with an explicit bounds check on every write: an
out-of-bounds write (a Rust panic) makes the whole computation return
`none`, as does a pixel of an unexpected `PixelKind` (also a panic in
the source).
-/

namespace RealSenseTools

/-- Rust `f32::clamp(lo, hi)`: `lo` if below, `hi` if above, else the value. -/
def clamp (v lo hi : ℚ) : ℚ :=
  if v < lo then lo else if hi < v then hi else v

/-- Rust `expr as u8` on a (finite) `f32` value: truncate towards zero and
saturate into `[0, 255]`.  For values `> -1` (all values cast in this code)
truncation towards zero agrees with the floor. -/
def f32toU8 (q : ℚ) : ℕ :=
  (min 255 ⌊q⌋).toNat

/-- Colours are `(r, g, b)` byte triples, as in `image::Rgb<u8>` and the
`(u8, u8, u8)` tuples of the Rust source. -/
abbrev Color := ℕ × ℕ × ℕ

/-- `lerp_color` from `realsense_viewer.rs`: linearly interpolates between
two colors based on value position, clamping the parameter to `[0, 1]`. -/
def lerp_color (value v_min : ℚ) (c_min : Color) (v_max : ℚ) (c_max : Color) :
    Color :=
  let t := clamp ((value - v_min) / (v_max - v_min)) 0 1
  ( f32toU8 ((c_min.1 : ℚ) + t * ((c_max.1 : ℚ) - (c_min.1 : ℚ))),
    f32toU8 ((c_min.2.1 : ℚ) + t * ((c_max.2.1 : ℚ) - (c_min.2.1 : ℚ))),
    f32toU8 ((c_min.2.2 : ℚ) + t * ((c_max.2.2 : ℚ) - (c_min.2.2 : ℚ))) )

/-- `jet_colormap` from `realsense_viewer.rs`: the classic jet color map,
Blue → Cyan → Yellow → Red → Black.  Note that the last branch (taken for
clamped values in `[0.75, 1]`) interpolates from `v_min = 0.8`, not from
`0.75`. -/
def jet_colormap (value : ℚ) : Color :=
  let v := clamp value 0 1
  if v < 1/4 then
    lerp_color v 0 (0, 0, 255) (1/4) (0, 255, 255)
  else if v < 1/2 then
    lerp_color v (1/4) (0, 255, 255) (1/2) (255, 255, 0)
  else if v < 3/4 then
    lerp_color v (1/2) (255, 255, 0) (3/4) (255, 0, 0)
  else
    lerp_color v (4/5) (255, 0, 0) 1 (0, 0, 0)

/-- Modelled from the spec (claim wording, for comparison with the code):
the top quarter of the ramp as the claim describes it, a linear
interpolation from red at `v = 0.75` to black at `v = 1.0`. -/
def jet_top_quarter_claimed (v : ℚ) : Color :=
  lerp_color v (3/4) (255, 0, 0) 1 (0, 0, 0)

/-- The pixel formats that the viewers match on
(`realsense_rust::frame::PixelKind`). -/
inductive PixelKind where
  | Z16 (depth : ℕ)
  | Y8 (y : ℕ)
  | Bgr8 (b g r : ℕ)
deriving DecidableEq

/-- Whether a pixel is a 16-bit depth pixel. -/
def PixelKind.isZ16 : PixelKind → Bool
  | .Z16 _ => true
  | _ => false

/-- Whether a pixel is an 8-bit infrared intensity pixel. -/
def PixelKind.isY8 : PixelKind → Bool
  | .Y8 _ => true
  | _ => false

/-- The `Z16` depth value of a pixel (junk `0` on other kinds; only ever
used under an `isZ16` guard). -/
def PixelKind.z16depth : PixelKind → ℕ
  | .Z16 d => d
  | _ => 0

/-- The `Y8` intensity value of a pixel (junk `0` on other kinds; only ever
used under an `isY8` guard). -/
def PixelKind.y8val : PixelKind → ℕ
  | .Y8 y => y
  | _ => 0

/-- A camera frame: dimensions plus the pixel returned by
`get_unchecked(x, y)`. -/
structure Frame where
  width : ℕ
  height : ℕ
  data : ℕ → ℕ → PixelKind

/-- An `image::RgbImage`: dimensions plus the pixel at each coordinate. -/
structure RgbImage where
  width : ℕ
  height : ℕ
  pix : ℕ → ℕ → Color

/-- `depth_frame_to_rgb_img` from `realsense_viewer.rs`: an image of the
frame's dimensions whose every pixel is `jet_colormap` of the `Z16` depth
divided by `4000.0`; a pixel of any other kind panics (`none`). -/
def depth_frame_to_rgb_img (frame : Frame) : Option RgbImage :=
  if ∀ x, x < frame.width → ∀ y, y < frame.height → (frame.data x y).isZ16 = true then
    some ⟨frame.width, frame.height,
      fun x y => jet_colormap (((frame.data x y).z16depth : ℚ) / 4000)⟩
  else none

/-! ## The 3D viewer (`realsense_3d_viewer.rs`) -/

/-- The instance count `640 * 640` of the 3D viewer. -/
def instance_number : ℕ := 640 * 640

/-- The two per-instance buffers filled by `MyApp::update`:
`depth_data` (one height per instance) and `infrared_data`
(four colour channels per instance). -/
structure Bufs where
  depth_data : ℕ → ℚ
  infrared_data : ℕ → ℚ

/-- An indexed store into `depth_data` (`Vec` of length `640 * 640`);
out of bounds is a panic. -/
def write_depth (b : Bufs) (i : ℕ) (q : ℚ) : Option Bufs :=
  if i < instance_number then
    some { b with depth_data := Function.update b.depth_data i q }
  else none

/-- An indexed store into `infrared_data` (`Vec` of length `640 * 640 * 4`);
out of bounds is a panic. -/
def write_infrared (b : Bufs) (i : ℕ) (q : ℚ) : Option Bufs :=
  if i < instance_number * 4 then
    some { b with infrared_data := Function.update b.infrared_data i q }
  else none

/-- The body of the per-pixel loop of `MyApp::update` in
`realsense_3d_viewer.rs` at pixel `(x, yy)`: normalize the `Z16` depth,
and when it exceeds `0.05` store the bar height `(1 - normalized) * 4`
and the greyscale infrared colour `(y/255, y/255, y/255, 1)`. -/
def process_pixel (depth_frame infrared_frame : Frame) (x yy : ℕ) (b : Bufs) :
    Option Bufs :=
  match depth_frame.data x yy with
  | .Z16 depth =>
    let normalized := clamp ((depth : ℚ) / 4000) 0 1
    if 1/20 < normalized then
      (write_depth b (x * 640 + yy) ((1 - normalized) * 4)).bind fun b1 =>
        match infrared_frame.data x yy with
        | .Y8 y =>
          (write_infrared b1 ((x * 640 + yy) * 4) ((y : ℚ) / 255)).bind fun b2 =>
          (write_infrared b2 ((x * 640 + yy) * 4 + 1) ((y : ℚ) / 255)).bind fun b3 =>
          (write_infrared b3 ((x * 640 + yy) * 4 + 2) ((y : ℚ) / 255)).bind fun b4 =>
          write_infrared b4 ((x * 640 + yy) * 4 + 3) 1
        | _ => none
    else some b
  | _ => none

/-- The inner loop `for yy in 0..m` of `MyApp::update` at column `x`. -/
def loop_yy (df inf : Frame) (x : ℕ) : ℕ → Bufs → Option Bufs
  | 0, b => some b
  | m + 1, b => (loop_yy df inf x m b).bind (process_pixel df inf x m)

/-- The outer loop `for x in 0..n` of `MyApp::update`; each iteration runs
the inner loop over `0..height`. -/
def loop_x (df inf : Frame) : ℕ → Bufs → Option Bufs
  | 0, b => some b
  | n + 1, b => (loop_x df inf n b).bind fun b1 => loop_yy df inf n df.height b1

/-- The buffer-population step of `MyApp::update`: panic (`none`) when the
paired frames differ in width or height, otherwise run the loops over the
depth frame's dimensions starting from the freshly zero-initialised
`depth_data` and `infrared_data` buffers. -/
def update_step (df inf : Frame) : Option Bufs :=
  if df.width ≠ inf.width ∨ df.height ≠ inf.height then none
  else loop_x df inf df.width ⟨fun _ => 0, fun _ => 0⟩

/-- The normalized depth of a pixel, as computed by `MyApp::update`. -/
def normalized_depth (df : Frame) (x yy : ℕ) : ℚ :=
  clamp (((df.data x yy).z16depth : ℚ) / 4000) 0 1

/-- The inner loop `for y in 0..m` of the translation-grid initialisation in
`MyApp::new` at column `x`: writes `(x - 320)/100` at `(x*640 + y)*2` and
`(y - 320)/100` at `(x*640 + y)*2 + 1`. -/
def td_loop_y (x : ℕ) : ℕ → (ℕ → ℚ) → (ℕ → ℚ)
  | 0, td => td
  | m + 1, td =>
    let td' := td_loop_y x m td
    Function.update (Function.update td' ((x * 640 + m) * 2) (((x : ℚ) - 320) / 100))
      ((x * 640 + m) * 2 + 1) (((m : ℚ) - 320) / 100)

/-- The outer loop `for x in 0..n` of the translation-grid initialisation. -/
def td_loop_x : ℕ → (ℕ → ℚ) → (ℕ → ℚ)
  | 0, td => td
  | n + 1, td => td_loop_y n 640 (td_loop_x n td)

/-- `translation_data` from `MyApp::new`: the per-instance translation grid,
a `Vec` of length `640 * 640 * 2` initialised to `0.0` and filled by the
double loop over `x` and `y` in `0..640`. -/
def translation_data : ℕ → ℚ :=
  td_loop_x 640 (fun _ => 0)

/-- A frame as seen by `frame_of_type_with_emitter`: its
`FrameEmitterMode` metadata (which may be missing) plus an abstract
payload distinguishing frames. -/
structure EmitterFrame where
  emitter_mode : Option ℤ
  payload : ℕ
deriving DecidableEq

/-- `frame_of_type_with_emitter` from `realsense_3d_viewer.rs`: `none` on
an empty list; otherwise look at the first frame's `FrameEmitterMode`
metadata, `none` when it is missing, and the first frame exactly when the
metadata equals `emitter_mode`. -/
def frame_of_type_with_emitter (frames : List EmitterFrame) (emitter_mode : ℤ) :
    Option EmitterFrame :=
  match frames with
  | [] => none
  | f :: _ =>
    match f.emitter_mode with
    | none => none
    | some mode => if mode = emitter_mode then some f else none

/-! ## The stream viewer app state (`realsense_viewer.rs`) -/

/-- The fields of `MyApp` in `realsense_viewer.rs` that
`MyApp::start_pipeline` reads or writes.  The active pipeline is
abstracted to `Option Unit`. -/
structure ViewerApp where
  warning : Option String
  pipeline : Option Unit
  depth_stream_enabled : Bool
  color_stream_enabled : Bool
  infrared_1_stream_enabled : Bool
  infrared_2_stream_enabled : Bool
  accel_stream_enabled : Bool
  gyro_stream_enabled : Bool

/-- `MyApp::start_pipeline`: when every stream toggle is disabled, set the
warning and clear the pipeline without attempting to start; otherwise
start the pipeline.  The boolean result records whether
`pipeline.start(..)` was attempted. -/
def start_pipeline (s : ViewerApp) : ViewerApp × Bool :=
  if !s.depth_stream_enabled && !s.color_stream_enabled
      && !s.infrared_1_stream_enabled && !s.infrared_2_stream_enabled
      && !s.accel_stream_enabled && !s.gyro_stream_enabled then
    ({ s with
        warning := some "We need at least one stream to start the pipeline",
        pipeline := none },
      false)
  else
    ({ s with pipeline := some () }, true)

/-! ## Concrete inputs used by witnesses and counterexamples -/

/-- A concrete 2×1 all-`Z16` depth frame (depths 1000 and 3000). -/
def depthFrameW : Frame :=
  ⟨2, 1, fun x _ => PixelKind.Z16 (1000 + 1000 * x)⟩

/-- A concrete 1×1 `Z16` depth frame of depth 2000 (normalized 0.5). -/
def depthFrame1 : Frame :=
  ⟨1, 1, fun _ _ => PixelKind.Z16 2000⟩

/-- A concrete 1×1 `Y8` infrared frame of intensity 128. -/
def infraredFrame1 : Frame :=
  ⟨1, 1, fun _ _ => PixelKind.Y8 128⟩

/-- A concrete 1×1 `Z16` depth frame of depth 3000 (normalized 0.75). -/
def depthFrame2 : Frame :=
  ⟨1, 1, fun _ _ => PixelKind.Z16 3000⟩

/-- A concrete 1×1 `Y8` infrared frame of intensity 51 (51/255 = 0.2). -/
def infraredFrame2 : Frame :=
  ⟨1, 1, fun _ _ => PixelKind.Y8 51⟩

/-- A concrete 2×1 `Z16` depth frame, for size-mismatch inputs. -/
def depthFrameWide : Frame :=
  ⟨2, 1, fun _ _ => PixelKind.Z16 2000⟩

/-- A concrete `ViewerApp` state with every stream toggle disabled. -/
def allDisabledApp : ViewerApp :=
  ⟨none, some (), false, false, false, false, false, false⟩

/-! ## Helper lemmas -/

theorem clamp_eq_lo {v lo hi : ℚ} (h : v ≤ lo) (hlh : lo ≤ hi) :
    clamp v lo hi = lo := by
  unfold clamp; split_ifs <;> linarith

theorem clamp_eq_hi {v lo hi : ℚ} (h : hi ≤ v) (hlh : lo ≤ hi) :
    clamp v lo hi = hi := by
  unfold clamp; split_ifs <;> linarith

theorem clamp_eq_self {v lo hi : ℚ} (h1 : lo ≤ v) (h2 : v ≤ hi) :
    clamp v lo hi = v := by
  unfold clamp; split_ifs <;> linarith

theorem clamp_mem {v lo hi : ℚ} (hlh : lo ≤ hi) :
    lo ≤ clamp v lo hi ∧ clamp v lo hi ≤ hi := by
  unfold clamp; split_ifs <;> constructor <;> linarith

theorem f32toU8_natCast (a : ℕ) (h : a ≤ 255) : f32toU8 (a : ℚ) = a := by
  unfold f32toU8
  rw [Int.floor_natCast]
  omega

theorem f32toU8_zero : f32toU8 0 = 0 := by
  have : ((0 : ℕ) : ℚ) = 0 := by norm_num
  rw [← this, f32toU8_natCast 0 (by norm_num)]

theorem f32toU8_add_zero_mul (a b : ℕ) (ha : a ≤ 255) :
    f32toU8 ((a : ℚ) + 0 * ((b : ℚ) - (a : ℚ))) = a := by
  have h : ((a : ℚ) + 0 * ((b : ℚ) - (a : ℚ))) = (a : ℚ) := by ring
  rw [h, f32toU8_natCast a ha]

theorem f32toU8_add_one_mul (a b : ℕ) (hb : b ≤ 255) :
    f32toU8 ((a : ℚ) + 1 * ((b : ℚ) - (a : ℚ))) = b := by
  have h : ((a : ℚ) + 1 * ((b : ℚ) - (a : ℚ))) = (b : ℚ) := by ring
  rw [h, f32toU8_natCast b hb]

/-- Below the lower stop, `lerp_color` returns `c_min` exactly. -/
theorem lerp_color_of_le {value v_min v_max : ℚ} (c_min c_max : Color)
    (hv : value ≤ v_min) (hlt : v_min < v_max)
    (h1 : c_min.1 ≤ 255) (h2 : c_min.2.1 ≤ 255) (h3 : c_min.2.2 ≤ 255) :
    lerp_color value v_min c_min v_max c_max = c_min := by
  have hden : (0 : ℚ) < v_max - v_min := by linarith
  have ht : (value - v_min) / (v_max - v_min) ≤ 0 :=
    div_nonpos_of_nonpos_of_nonneg (by linarith) (le_of_lt hden)
  have hc : clamp ((value - v_min) / (v_max - v_min)) 0 1 = 0 :=
    clamp_eq_lo ht (by norm_num)
  simp only [lerp_color, hc]
  rw [f32toU8_add_zero_mul _ _ h1, f32toU8_add_zero_mul _ _ h2,
    f32toU8_add_zero_mul _ _ h3]

/-- Above the upper stop, `lerp_color` returns `c_max` exactly. -/
theorem lerp_color_of_ge {value v_min v_max : ℚ} (c_min c_max : Color)
    (hv : v_max ≤ value) (hlt : v_min < v_max)
    (h1 : c_max.1 ≤ 255) (h2 : c_max.2.1 ≤ 255) (h3 : c_max.2.2 ≤ 255) :
    lerp_color value v_min c_min v_max c_max = c_max := by
  have hden : (0 : ℚ) < v_max - v_min := by linarith
  have ht : 1 ≤ (value - v_min) / (v_max - v_min) :=
    (one_le_div hden).mpr (by linarith)
  have hc : clamp ((value - v_min) / (v_max - v_min)) 0 1 = 1 :=
    clamp_eq_hi ht (by norm_num)
  simp only [lerp_color, hc]
  rw [f32toU8_add_one_mul _ _ h1, f32toU8_add_one_mul _ _ h2,
    f32toU8_add_one_mul _ _ h3]

/-! ## Claim theorems: the colour ramp -/

/-- Claim C4: `lerp_color` clamps the interpolation parameter to `[0, 1]`:
it is exactly `c_min` at `v_min`, exactly `c_max` at `v_max`, and equal to
the nearer endpoint colour for every value outside `[v_min, v_max]`. -/
theorem lerp_color_clamps (value v_min v_max : ℚ) (c_min c_max : Color)
    (hlt : v_min < v_max)
    (h1 : c_min.1 ≤ 255) (h2 : c_min.2.1 ≤ 255) (h3 : c_min.2.2 ≤ 255)
    (h4 : c_max.1 ≤ 255) (h5 : c_max.2.1 ≤ 255) (h6 : c_max.2.2 ≤ 255) :
    lerp_color v_min v_min c_min v_max c_max = c_min ∧
    lerp_color v_max v_min c_min v_max c_max = c_max ∧
    (value ≤ v_min → lerp_color value v_min c_min v_max c_max = c_min) ∧
    (v_max ≤ value → lerp_color value v_min c_min v_max c_max = c_max) :=
  ⟨lerp_color_of_le c_min c_max le_rfl hlt h1 h2 h3,
   lerp_color_of_ge c_min c_max le_rfl hlt h4 h5 h6,
   fun h => lerp_color_of_le c_min c_max h hlt h1 h2 h3,
   fun h => lerp_color_of_ge c_min c_max h hlt h4 h5 h6⟩

/-- Witness for C4 at `value = 2`, `v_min = 0`, `v_max = 1`. -/
theorem lerp_color_clamps_witness :
    lerp_color 0 0 (10, 20, 30) 1 (40, 50, 60) = (10, 20, 30) ∧
    lerp_color 1 0 (10, 20, 30) 1 (40, 50, 60) = (40, 50, 60) ∧
    ((2 : ℚ) ≤ 0 → lerp_color 2 0 (10, 20, 30) 1 (40, 50, 60) = (10, 20, 30)) ∧
    ((1 : ℚ) ≤ 2 → lerp_color 2 0 (10, 20, 30) 1 (40, 50, 60) = (40, 50, 60)) :=
  lerp_color_clamps 2 0 1 (10, 20, 30) (40, 50, 60) (by norm_num)
    (by norm_num) (by norm_num) (by norm_num)
    (by norm_num) (by norm_num) (by norm_num)

/-- Claim C2: `jet_colormap` clamps its input to `[0, 1]` and hits the
ramp stops exactly: blue at `0`, cyan at `0.25`, yellow at `0.5`, black
at `1`. -/
theorem jet_colormap_clamps_and_stops :
    (∀ v : ℚ, v ≤ 0 → jet_colormap v = jet_colormap 0) ∧
    (∀ v : ℚ, 1 ≤ v → jet_colormap v = jet_colormap 1) ∧
    jet_colormap 0 = (0, 0, 255) ∧
    jet_colormap (1/4) = (0, 255, 255) ∧
    jet_colormap (1/2) = (255, 255, 0) ∧
    jet_colormap 1 = (0, 0, 0) := by
  refine ⟨?_, ?_, ?_, ?_, ?_, ?_⟩
  · intro v hv
    have hl : clamp v 0 1 = 0 := clamp_eq_lo hv (by norm_num)
    have hr : clamp (0 : ℚ) 0 1 = 0 := clamp_eq_lo le_rfl (by norm_num)
    simp only [jet_colormap, hl, hr]
  · intro v hv
    have hl : clamp v 0 1 = 1 := clamp_eq_hi hv (by norm_num)
    have hr : clamp (1 : ℚ) 0 1 = 1 := clamp_eq_hi le_rfl (by norm_num)
    simp only [jet_colormap, hl, hr]
  · norm_num [jet_colormap, lerp_color, clamp, f32toU8]
    all_goals rfl
  · norm_num [jet_colormap, lerp_color, clamp, f32toU8]
    all_goals rfl
  · norm_num [jet_colormap, lerp_color, clamp, f32toU8]
    all_goals rfl
  · norm_num [jet_colormap, lerp_color, clamp, f32toU8]
    all_goals rfl

/-- Witness for C2's clamping parts at `v = -1` and `v = 2`. -/
theorem jet_colormap_clamps_witness :
    jet_colormap (-1) = jet_colormap 0 ∧ jet_colormap 2 = jet_colormap 1 :=
  ⟨jet_colormap_clamps_and_stops.1 (-1) (by norm_num),
   jet_colormap_clamps_and_stops.2.1 2 (by norm_num)⟩

/-- Claim C3 counterexample: at `v = 0.79` the code returns pure red
`(255, 0, 0)` (because the last branch only starts interpolating at
`v_min = 0.8`), while the claimed linear ramp from red at `0.75` to black
at `1.0` gives `(214, 0, 0)`. -/
theorem jet_top_quarter_counterexample :
    jet_colormap (79/100) = (255, 0, 0) ∧
    jet_top_quarter_claimed (79/100) = (214, 0, 0) ∧
    jet_colormap (79/100) ≠ jet_top_quarter_claimed (79/100) := by
  have h1 : jet_colormap (79/100) = (255, 0, 0) := by
    norm_num [jet_colormap, lerp_color, clamp, f32toU8]
    all_goals rfl
  have h2 : jet_top_quarter_claimed (79/100) = (214, 0, 0) := by
    norm_num [jet_top_quarter_claimed, lerp_color, clamp, f32toU8]
    all_goals rfl
  refine ⟨h1, h2, ?_⟩
  rw [h1, h2]
  simp

/-- Claim C3 amended: on `[0.75, 0.8]` the top branch's parameter clamps
to `0`, so `jet_colormap` is constantly red there; only on `[0.8, 1.0]`
does it descend linearly from red to black (red component
`trunc (1275 * (1 - v))`, green and blue `0`). -/
theorem jet_top_quarter_amended (v : ℚ) (hlo : 3/4 ≤ v) (hhi : v ≤ 1) :
    (v ≤ 4/5 → jet_colormap v = (255, 0, 0)) ∧
    (4/5 ≤ v → jet_colormap v = (f32toU8 (1275 * (1 - v)), 0, 0)) := by
  have hcv : clamp v 0 1 = v := clamp_eq_self (by linarith) hhi
  constructor
  · intro h
    simp only [jet_colormap, hcv]
    split_ifs with ha hb hc
    · exact absurd ha (by linarith)
    · exact absurd hb (by linarith)
    · exact absurd hc (by linarith)
    · exact lerp_color_of_le _ _ h (by norm_num) (by norm_num) (by norm_num)
        (by norm_num)
  · intro h
    have hX : (v - 4/5) / (1 - 4/5) = 5 * v - 4 := by
      rw [show (1 : ℚ) - 4/5 = 1/5 by norm_num,
        div_eq_iff (by norm_num : (1 : ℚ)/5 ≠ 0)]
      ring
    have hclamp : clamp ((v - 4/5) / (1 - 4/5)) 0 1 = 5 * v - 4 := by
      rw [hX]; exact clamp_eq_self (by linarith) (by linarith)
    simp only [jet_colormap, hcv]
    split_ifs with ha hb hc
    · exact absurd ha (by linarith)
    · exact absurd hb (by linarith)
    · exact absurd hc (by linarith)
    · simp only [lerp_color, hclamp]
      refine Prod.ext ?_ (Prod.ext ?_ ?_) <;> simp only
      · congr 1
        push_cast
        ring
      · have harg : (((0, 0, 0).2.1 : ℕ) : ℚ)
            + (5 * v - 4) * ((((0, 0, 0).2.1 : ℕ) : ℚ) - (((255, 0, 0).2.1 : ℕ) : ℚ))
            = 0 := by push_cast; ring
        simp only at harg ⊢
        rw [show ((0 : ℕ) : ℚ) + (5 * v - 4) * (((0 : ℕ) : ℚ) - ((0 : ℕ) : ℚ)) = 0 by
          push_cast; ring]
        exact f32toU8_zero
      · rw [show ((0 : ℕ) : ℚ) + (5 * v - 4) * (((0 : ℕ) : ℚ) - ((0 : ℕ) : ℚ)) = 0 by
          push_cast; ring]
        exact f32toU8_zero

/-- Witness for the amended C3 at `v = 0.78` (flat part) and `v = 0.9`
(descending part). -/
theorem jet_top_quarter_amended_witness :
    ((78/100 : ℚ) ≤ 4/5 → jet_colormap (78/100) = (255, 0, 0)) ∧
    ((4/5 : ℚ) ≤ 9/10 → jet_colormap (9/10) = (f32toU8 (1275 * (1 - 9/10)), 0, 0)) :=
  ⟨(jet_top_quarter_amended (78/100) (by norm_num) (by norm_num)).1,
   (jet_top_quarter_amended (9/10) (by norm_num) (by norm_num)).2⟩

/-! ## Claim theorems: the stream viewer -/

/-- Claim C1: on a depth frame (every pixel `Z16`), `depth_frame_to_rgb_img`
returns an image of the frame's width and height whose pixel at every
in-range coordinate is `jet_colormap` of the pixel's depth divided by
`4000.0`. -/
theorem depth_frame_to_rgb_img_spec (frame : Frame)
    (h : ∀ x, x < frame.width → ∀ y, y < frame.height →
      (frame.data x y).isZ16 = true) :
    ∃ img, depth_frame_to_rgb_img frame = some img ∧
      img.width = frame.width ∧ img.height = frame.height ∧
      ∀ x y d, x < frame.width → y < frame.height →
        frame.data x y = PixelKind.Z16 d →
        img.pix x y = jet_colormap ((d : ℚ) / 4000) := by
  refine ⟨⟨frame.width, frame.height,
      fun x y => jet_colormap (((frame.data x y).z16depth : ℚ) / 4000)⟩,
    ?_, rfl, rfl, ?_⟩
  · rw [depth_frame_to_rgb_img, if_pos h]
  · intro x y d hx hy hd
    simp only [hd, PixelKind.z16depth]

/-- Witness for C1 on a concrete 2×1 depth frame. -/
theorem depth_frame_to_rgb_img_witness :
    ∃ img, depth_frame_to_rgb_img depthFrameW = some img ∧
      img.width = depthFrameW.width ∧ img.height = depthFrameW.height ∧
      ∀ x y d, x < depthFrameW.width → y < depthFrameW.height →
        depthFrameW.data x y = PixelKind.Z16 d →
        img.pix x y = jet_colormap ((d : ℚ) / 4000) :=
  depth_frame_to_rgb_img_spec depthFrameW (by decide)

/-! ## Claim theorems: frame pairing and pipeline start -/

/-- Claim C8: `frame_of_type_with_emitter` returns `some f` exactly when
the list is non-empty, `f` is its first frame, and `f`'s emitter-mode
metadata is present and equal to the requested mode; and the result never
depends on any frame past the first. -/
theorem frame_of_type_with_emitter_spec (frames : List EmitterFrame) (em : ℤ) :
    (∀ f, frame_of_type_with_emitter frames em = some f ↔
      frames.head? = some f ∧ f.emitter_mode = some em) ∧
    (∀ g : EmitterFrame, ∀ rest rest' : List EmitterFrame,
      frame_of_type_with_emitter (g :: rest) em
        = frame_of_type_with_emitter (g :: rest') em) := by
  constructor
  · intro f
    match frames with
    | [] => simp [frame_of_type_with_emitter]
    | g :: t =>
      cases hm : g.emitter_mode with
      | none =>
        have hval : frame_of_type_with_emitter (g :: t) em = none := by
          simp [frame_of_type_with_emitter, hm]
        rw [hval, List.head?_cons]
        constructor
        · intro hc; cases hc
        · rintro ⟨hgf, hfe⟩
          rw [Option.some_inj] at hgf
          subst hgf
          rw [hm] at hfe
          cases hfe
      | some mode =>
        have hval : frame_of_type_with_emitter (g :: t) em
            = if mode = em then some g else none := by
          simp [frame_of_type_with_emitter, hm]
        rw [hval, List.head?_cons]
        by_cases hme : mode = em
        · subst hme
          rw [if_pos rfl]
          constructor
          · intro hgf
            rw [Option.some_inj] at hgf
            subst hgf
            exact ⟨rfl, hm⟩
          · rintro ⟨hgf, _⟩
            exact hgf
        · rw [if_neg hme]
          constructor
          · intro hc; cases hc
          · rintro ⟨hgf, hfe⟩
            rw [Option.some_inj] at hgf
            subst hgf
            rw [hm] at hfe
            rw [Option.some_inj] at hfe
            exact absurd hfe hme
  · intro g rest rest'
    rfl

/-- Witness for C8: a one-element list whose frame carries emitter mode 1. -/
theorem frame_of_type_with_emitter_witness :
    frame_of_type_with_emitter [⟨some 1, 7⟩] 1 = some ⟨some 1, 7⟩ :=
  (frame_of_type_with_emitter_spec [⟨some 1, 7⟩] 1).1 ⟨some 1, 7⟩ |>.mpr
    ⟨rfl, rfl⟩

/-- Claim C10: `start_pipeline` with all six stream toggles disabled only
sets the warning and leaves the pipeline `None`; it does not attempt to
start the pipeline. -/
theorem start_pipeline_all_disabled (s : ViewerApp)
    (h1 : s.depth_stream_enabled = false)
    (h2 : s.color_stream_enabled = false)
    (h3 : s.infrared_1_stream_enabled = false)
    (h4 : s.infrared_2_stream_enabled = false)
    (h5 : s.accel_stream_enabled = false)
    (h6 : s.gyro_stream_enabled = false) :
    start_pipeline s =
      ({ s with
          warning := some "We need at least one stream to start the pipeline",
          pipeline := none },
        false) := by
  simp [start_pipeline, h1, h2, h3, h4, h5, h6]

/-- Witness for C10 on the concrete all-disabled app state. -/
theorem start_pipeline_all_disabled_witness :
    start_pipeline allDisabledApp =
      ({ allDisabledApp with
          warning := some "We need at least one stream to start the pipeline",
          pipeline := none },
        false) :=
  start_pipeline_all_disabled allDisabledApp rfl rfl rfl rfl rfl rfl

/-! ## The per-pixel step of the 3D viewer -/

set_option maxRecDepth 4000 in
/-- One `process_pixel` call on a well-typed in-range pixel never panics,
and it changes exactly the pixel's height entry and four colour entries
(when the normalized depth exceeds `0.05`) or nothing (otherwise). -/
theorem process_pixel_spec (df inf : Frame) (x yy : ℕ)
    (hx : x < 640) (hy : yy < 640)
    (hz : (df.data x yy).isZ16 = true) (hy8 : (inf.data x yy).isY8 = true)
    (b : Bufs) :
    ∃ b', process_pixel df inf x yy b = some b' ∧
      (∀ j, b'.depth_data j =
        if j = x * 640 + yy ∧ 1/20 < normalized_depth df x yy then
          (1 - normalized_depth df x yy) * 4
        else b.depth_data j) ∧
      (∀ j, b'.infrared_data j =
        if (j = (x * 640 + yy) * 4 ∨ j = (x * 640 + yy) * 4 + 1 ∨
              j = (x * 640 + yy) * 4 + 2 ∨ j = (x * 640 + yy) * 4 + 3) ∧
            1/20 < normalized_depth df x yy then
          (if j = (x * 640 + yy) * 4 + 3 then 1
            else ((inf.data x yy).y8val : ℚ) / 255)
        else b.infrared_data j) := by
  obtain ⟨d, hd⟩ : ∃ d, df.data x yy = PixelKind.Z16 d := by
    cases hdd : df.data x yy with
    | Z16 d => exact ⟨d, rfl⟩
    | Y8 y => rw [hdd] at hz; simp [PixelKind.isZ16] at hz
    | Bgr8 bb gg rr => rw [hdd] at hz; simp [PixelKind.isZ16] at hz
  obtain ⟨y, hyv⟩ : ∃ y, inf.data x yy = PixelKind.Y8 y := by
    cases hdd : inf.data x yy with
    | Z16 d => rw [hdd] at hy8; simp [PixelKind.isY8] at hy8
    | Y8 y => exact ⟨y, rfl⟩
    | Bgr8 bb gg rr => rw [hdd] at hy8; simp [PixelKind.isY8] at hy8
  have hN : normalized_depth df x yy = clamp ((d : ℚ) / 4000) 0 1 := by
    rw [normalized_depth, hd]
    rfl
  by_cases hn : 1/20 < clamp ((d : ℚ) / 4000) 0 1
  · have hi0 : x * 640 + yy < instance_number := by
      unfold instance_number; omega
    have hi1 : (x * 640 + yy) * 4 < instance_number * 4 := by
      unfold instance_number; omega
    have hi2 : (x * 640 + yy) * 4 + 1 < instance_number * 4 := by
      unfold instance_number; omega
    have hi3 : (x * 640 + yy) * 4 + 2 < instance_number * 4 := by
      unfold instance_number; omega
    have hi4 : (x * 640 + yy) * 4 + 3 < instance_number * 4 := by
      unfold instance_number; omega
    simp only [process_pixel, hd, hyv, write_depth, write_infrared, if_pos hn,
      if_pos hi0, if_pos hi1, if_pos hi2, if_pos hi3, if_pos hi4,
      Option.some_bind]
    refine ⟨_, rfl, ?_, ?_⟩
    · intro j
      rw [hN]
      simp only [Function.update_apply]
      by_cases hj : j = x * 640 + yy
      · rw [if_pos hj, if_pos ⟨hj, hn⟩]
      · rw [if_neg hj, if_neg (fun hc => hj hc.1)]
    · intro j
      rw [hN]
      simp only [Function.update_apply, PixelKind.y8val]
      split_ifs <;> first | rfl | tauto | omega
  · simp only [process_pixel, hd, if_neg hn]
    refine ⟨b, rfl, ?_, ?_⟩
    · intro j
      rw [hN, if_neg (fun hc => hn hc.2)]
    · intro j
      rw [hN, if_neg (fun hc => hn hc.2)]

/-- The inner loop over `yy < m` never panics on well-typed in-range rows
and writes exactly the entries of its column's pixels. -/
theorem loop_yy_spec (df inf : Frame) (x : ℕ) (hx : x < 640) (m : ℕ)
    (hm : m ≤ 640)
    (hty : ∀ yy, yy < m → (df.data x yy).isZ16 = true ∧ (inf.data x yy).isY8 = true)
    (b : Bufs) :
    ∃ b', loop_yy df inf x m b = some b' ∧
      (∀ yy, yy < m →
        b'.depth_data (x * 640 + yy) =
          if 1/20 < normalized_depth df x yy then
            (1 - normalized_depth df x yy) * 4
          else b.depth_data (x * 640 + yy)) ∧
      (∀ j, (∀ yy, yy < m → j ≠ x * 640 + yy) →
        b'.depth_data j = b.depth_data j) ∧
      (∀ yy, yy < m → ∀ r, r < 4 →
        b'.infrared_data ((x * 640 + yy) * 4 + r) =
          if 1/20 < normalized_depth df x yy then
            (if r = 3 then 1 else ((inf.data x yy).y8val : ℚ) / 255)
          else b.infrared_data ((x * 640 + yy) * 4 + r)) ∧
      (∀ j, (∀ yy, yy < m → ∀ r, r < 4 → j ≠ (x * 640 + yy) * 4 + r) →
        b'.infrared_data j = b.infrared_data j) := by
  induction m with
  | zero =>
    refine ⟨b, rfl, ?_, ?_, ?_, ?_⟩
    · intro yy hyy; omega
    · intro j h'; rfl
    · intro yy hyy; omega
    · intro j h'; rfl
  | succ m ih =>
    obtain ⟨b₁, hb₁, ihw, ihu, ihwc, ihuc⟩ :=
      ih (by omega) (fun yy hyy => hty yy (by omega))
    obtain ⟨b', hb', pw, pc⟩ :=
      process_pixel_spec df inf x m hx (by omega) (hty m (by omega)).1
        (hty m (by omega)).2 b₁
    refine ⟨b', ?_, ?_, ?_, ?_, ?_⟩
    · simp only [loop_yy]
      rw [hb₁, Option.some_bind, hb']
    · intro yy hyy
      by_cases hym : yy = m
      · subst hym
        rw [pw (x * 640 + yy)]
        by_cases hn : 1/20 < normalized_depth df x yy
        · rw [if_pos ⟨rfl, hn⟩, if_pos hn]
        · rw [if_neg (fun hc => hn hc.2), if_neg hn]
          exact ihu _ (fun yy' hyy' => by omega)
      · have hne : x * 640 + yy ≠ x * 640 + m := by omega
        rw [pw (x * 640 + yy), if_neg (fun hc => hne hc.1)]
        exact ihw yy (by omega)
    · intro j hj
      rw [pw j, if_neg (fun hc => hj m (by omega) hc.1)]
      exact ihu j (fun yy hyy => hj yy (by omega))
    · intro yy hyy r hr
      by_cases hym : yy = m
      · subst hym
        rw [pc ((x * 640 + yy) * 4 + r)]
        by_cases hn : 1/20 < normalized_depth df x yy
        · have hor : (x * 640 + yy) * 4 + r = (x * 640 + yy) * 4 ∨
              (x * 640 + yy) * 4 + r = (x * 640 + yy) * 4 + 1 ∨
              (x * 640 + yy) * 4 + r = (x * 640 + yy) * 4 + 2 ∨
              (x * 640 + yy) * 4 + r = (x * 640 + yy) * 4 + 3 := by omega
          rw [if_pos ⟨hor, hn⟩, if_pos hn]
          by_cases hr3 : r = 3
          · subst hr3
            rw [if_pos rfl, if_pos rfl]
          · rw [if_neg (by omega), if_neg hr3]
        · rw [if_neg (fun hc => hn hc.2), if_neg hn]
          exact ihuc _ (fun yy' hyy' r' hr' => by omega)
      · rw [pc ((x * 640 + yy) * 4 + r), if_neg ?_]
        · exact ihwc yy (by omega) r hr
        · rintro ⟨hor, -⟩
          rcases hor with h' | h' | h' | h' <;> omega
    · intro j hj
      rw [pc j, if_neg ?_]
      · exact ihuc j (fun yy hyy r hr => hj yy (by omega) r hr)
      · rintro ⟨hor, -⟩
        rcases hor with h' | h' | h' | h'
        · exact hj m (by omega) 0 (by omega) (by omega)
        · exact hj m (by omega) 1 (by omega) (by omega)
        · exact hj m (by omega) 2 (by omega) (by omega)
        · exact hj m (by omega) 3 (by omega) (by omega)

/-- The outer loop over `x < n` never panics on a well-typed in-range frame
pair and writes exactly the entries of the processed pixels. -/
theorem loop_x_spec (df inf : Frame) (hh : df.height ≤ 640) (n : ℕ)
    (hn : n ≤ 640)
    (hty : ∀ x, x < n → ∀ yy, yy < df.height →
      (df.data x yy).isZ16 = true ∧ (inf.data x yy).isY8 = true)
    (b : Bufs) :
    ∃ b', loop_x df inf n b = some b' ∧
      (∀ x yy, x < n → yy < df.height →
        b'.depth_data (x * 640 + yy) =
          if 1/20 < normalized_depth df x yy then
            (1 - normalized_depth df x yy) * 4
          else b.depth_data (x * 640 + yy)) ∧
      (∀ j, (∀ x yy, x < n → yy < df.height → j ≠ x * 640 + yy) →
        b'.depth_data j = b.depth_data j) ∧
      (∀ x yy, x < n → yy < df.height → ∀ r, r < 4 →
        b'.infrared_data ((x * 640 + yy) * 4 + r) =
          if 1/20 < normalized_depth df x yy then
            (if r = 3 then 1 else ((inf.data x yy).y8val : ℚ) / 255)
          else b.infrared_data ((x * 640 + yy) * 4 + r)) ∧
      (∀ j, (∀ x yy, x < n → yy < df.height → ∀ r, r < 4 →
          j ≠ (x * 640 + yy) * 4 + r) →
        b'.infrared_data j = b.infrared_data j) := by
  induction n with
  | zero =>
    refine ⟨b, rfl, ?_, ?_, ?_, ?_⟩
    · intro x yy hx hyy; exact absurd hx (Nat.not_lt_zero x)
    · intro j h'; rfl
    · intro x yy hx hyy; exact absurd hx (Nat.not_lt_zero x)
    · intro j h'; rfl
  | succ n ih =>
    obtain ⟨b₁, hb₁, ihw, ihu, ihwc, ihuc⟩ :=
      ih (by omega) (fun x hx yy hyy => hty x (by omega) yy hyy)
    obtain ⟨b', hb', lw, lu, lwc, luc⟩ :=
      loop_yy_spec df inf n (by omega) df.height hh
        (fun yy hyy => hty n (by omega) yy hyy) b₁
    refine ⟨b', ?_, ?_, ?_, ?_, ?_⟩
    · simp only [loop_x]
      rw [hb₁, Option.some_bind, hb']
    · intro x yy hxn hyy
      by_cases hxe : x = n
      · subst hxe
        rw [lw yy hyy]
        by_cases hret : 1/20 < normalized_depth df x yy
        · rw [if_pos hret, if_pos hret]
        · rw [if_neg hret, if_neg hret]
          exact ihu _ (fun x' yy' hx' hyy' => by omega)
      · have hun : ∀ yy', yy' < df.height → x * 640 + yy ≠ n * 640 + yy' := by
          intro yy' hyy'; omega
        rw [lu _ hun]
        exact ihw x yy (by omega) hyy
    · intro j hj
      rw [lu j (fun yy hyy => hj n yy (by omega) hyy)]
      exact ihu j (fun x yy hx hyy => hj x yy (by omega) hyy)
    · intro x yy hxn hyy r hr
      by_cases hxe : x = n
      · subst hxe
        rw [lwc yy hyy r hr]
        by_cases hret : 1/20 < normalized_depth df x yy
        · rw [if_pos hret, if_pos hret]
        · rw [if_neg hret, if_neg hret]
          exact ihuc _ (fun x' yy' hx' hyy' r' hr' => by omega)
      · have hne : ∀ yy', yy' < df.height → ∀ r', r' < 4 →
            (x * 640 + yy) * 4 + r ≠ (n * 640 + yy') * 4 + r' := by
          intro yy' hyy' r' hr'; omega
        rw [luc _ hne]
        exact ihwc x yy (by omega) hyy r hr
    · intro j hj
      rw [luc j (fun yy hyy r hr => hj n yy (by omega) hyy r hr)]
      exact ihuc j (fun x yy hx hyy r hr => hj x yy (by omega) hyy r hr)

/-- Full characterization of the buffer-population step of `MyApp::update`:
on a well-typed, equally-sized frame pair within the 640×640 grid it never
panics, and the final buffers hold exactly the heights and colours of the
retained pixels and `0` everywhere else. -/
theorem update_step_spec (df inf : Frame)
    (hweq : df.width = inf.width) (hheq : df.height = inf.height)
    (hw : df.width ≤ 640) (hh : df.height ≤ 640)
    (hty : ∀ x, x < df.width → ∀ yy, yy < df.height →
      (df.data x yy).isZ16 = true ∧ (inf.data x yy).isY8 = true) :
    ∃ B, update_step df inf = some B ∧
      (∀ x yy, x < df.width → yy < df.height →
        B.depth_data (x * 640 + yy) =
          if 1/20 < normalized_depth df x yy then
            (1 - normalized_depth df x yy) * 4
          else 0) ∧
      (∀ j, (∀ x yy, x < df.width → yy < df.height → j ≠ x * 640 + yy) →
        B.depth_data j = 0) ∧
      (∀ x yy, x < df.width → yy < df.height → ∀ r, r < 4 →
        B.infrared_data ((x * 640 + yy) * 4 + r) =
          if 1/20 < normalized_depth df x yy then
            (if r = 3 then 1 else ((inf.data x yy).y8val : ℚ) / 255)
          else 0) ∧
      (∀ j, (∀ x yy, x < df.width → yy < df.height → ∀ r, r < 4 →
          j ≠ (x * 640 + yy) * 4 + r) →
        B.infrared_data j = 0) := by
  obtain ⟨B, hB, w1, u1, w2, u2⟩ :=
    loop_x_spec df inf hh df.width hw hty ⟨fun _ => 0, fun _ => 0⟩
  have hup : update_step df inf
      = loop_x df inf df.width ⟨fun _ => 0, fun _ => 0⟩ := by
    rw [update_step, if_neg]
    push_neg
    exact ⟨hweq, hheq⟩
  refine ⟨B, by rw [hup, hB], ?_, ?_, ?_, ?_⟩
  · intro x yy hx hyy
    rw [w1 x yy hx hyy]
  · intro j hj
    rw [u1 j hj]
  · intro x yy hx hyy r hr
    rw [w2 x yy hx hyy r hr]
  · intro j hj
    rw [u2 j hj]

/-! ## Claim theorems: the 3D viewer's buffers -/

/-- Claim C5: in the point-cloud-building step, a pixel of normalized
depth `n > 0.05` gets height `(1 - n) * 4` at index `x*640 + y`, any other
pixel's entry keeps its initial value `0.0`, and every height lies in
`[0, 4)`. -/
theorem update_heights (df inf : Frame)
    (hweq : df.width = inf.width) (hheq : df.height = inf.height)
    (hw : df.width ≤ 640) (hh : df.height ≤ 640)
    (hty : ∀ x, x < df.width → ∀ yy, yy < df.height →
      (df.data x yy).isZ16 = true ∧ (inf.data x yy).isY8 = true) :
    ∃ B, update_step df inf = some B ∧
      (∀ x yy d, x < df.width → yy < df.height →
        df.data x yy = PixelKind.Z16 d →
        B.depth_data (x * 640 + yy) =
          if 1/20 < clamp ((d : ℚ) / 4000) 0 1 then
            (1 - clamp ((d : ℚ) / 4000) 0 1) * 4
          else 0) ∧
      (∀ i, 0 ≤ B.depth_data i ∧ B.depth_data i < 4) := by
  obtain ⟨B, hB, w1, u1, w2, u2⟩ := update_step_spec df inf hweq hheq hw hh hty
  refine ⟨B, hB, ?_, ?_⟩
  · intro x yy d hx hyy hd
    have hN : normalized_depth df x yy = clamp ((d : ℚ) / 4000) 0 1 := by
      rw [normalized_depth, hd]
      rfl
    rw [w1 x yy hx hyy, hN]
  · intro i
    by_cases hex : ∃ x yy, x < df.width ∧ yy < df.height ∧ i = x * 640 + yy
    · obtain ⟨x, yy, hx, hyy, rfl⟩ := hex
      rw [w1 x yy hx hyy]
      have hmem : (0 : ℚ) ≤ normalized_depth df x yy
          ∧ normalized_depth df x yy ≤ 1 := by
        rw [normalized_depth]
        exact clamp_mem (by norm_num)
      by_cases hret : 1/20 < normalized_depth df x yy
      · rw [if_pos hret]
        constructor
        · linarith [hmem.2]
        · linarith [hret]
      · rw [if_neg hret]
        norm_num
    · push_neg at hex
      rw [u1 i (fun x yy hx hyy => hex x yy hx hyy)]
      norm_num

/-- Witness for C5 on a concrete retained pixel (depth 3000, so normalized
depth `0.75` and height `1.0`). -/
theorem update_heights_witness :
    ∃ B, update_step depthFrame2 infraredFrame2 = some B ∧
      (∀ x yy d, x < depthFrame2.width → yy < depthFrame2.height →
        depthFrame2.data x yy = PixelKind.Z16 d →
        B.depth_data (x * 640 + yy) =
          if 1/20 < clamp ((d : ℚ) / 4000) 0 1 then
            (1 - clamp ((d : ℚ) / 4000) 0 1) * 4
          else 0) ∧
      (∀ i, 0 ≤ B.depth_data i ∧ B.depth_data i < 4) :=
  update_heights depthFrame2 infraredFrame2 rfl rfl (by decide) (by decide)
    (by decide)

/-- Claim C6 (amended): the colour stored for each retained pixel is the
greyscale of the infrared intensity, `(y/255, y/255, y/255, 1.0)`; the jet
colormap plays no role in the 3D viewer. -/
theorem update_colors (df inf : Frame)
    (hweq : df.width = inf.width) (hheq : df.height = inf.height)
    (hw : df.width ≤ 640) (hh : df.height ≤ 640)
    (hty : ∀ x, x < df.width → ∀ yy, yy < df.height →
      (df.data x yy).isZ16 = true ∧ (inf.data x yy).isY8 = true) :
    ∃ B, update_step df inf = some B ∧
      ∀ x yy d y, x < df.width → yy < df.height →
        df.data x yy = PixelKind.Z16 d → inf.data x yy = PixelKind.Y8 y →
        1/20 < clamp ((d : ℚ) / 4000) 0 1 →
        B.infrared_data ((x * 640 + yy) * 4) = (y : ℚ) / 255 ∧
        B.infrared_data ((x * 640 + yy) * 4 + 1) = (y : ℚ) / 255 ∧
        B.infrared_data ((x * 640 + yy) * 4 + 2) = (y : ℚ) / 255 ∧
        B.infrared_data ((x * 640 + yy) * 4 + 3) = 1 := by
  obtain ⟨B, hB, w1, u1, w2, u2⟩ := update_step_spec df inf hweq hheq hw hh hty
  refine ⟨B, hB, ?_⟩
  intro x yy d y hx hyy hd hyv hret
  have hN : normalized_depth df x yy = clamp ((d : ℚ) / 4000) 0 1 := by
    rw [normalized_depth, hd]
    rfl
  have hNret : 1/20 < normalized_depth df x yy := by rw [hN]; exact hret
  have hyq : ((inf.data x yy).y8val : ℚ) = (y : ℚ) := by
    rw [hyv]
    rfl
  refine ⟨?_, ?_, ?_, ?_⟩
  · have h0 := w2 x yy hx hyy 0 (by omega)
    rw [if_pos hNret] at h0
    norm_num [hyq] at h0
    exact h0
  · have h1 := w2 x yy hx hyy 1 (by omega)
    rw [if_pos hNret] at h1
    norm_num [hyq] at h1
    exact h1
  · have h2 := w2 x yy hx hyy 2 (by omega)
    rw [if_pos hNret] at h2
    norm_num [hyq] at h2
    exact h2
  · have h3 := w2 x yy hx hyy 3 (by omega)
    rw [if_pos hNret] at h3
    norm_num at h3
    exact h3

/-- Witness for the amended C6 on a concrete retained pixel
(infrared intensity 51, so colour channels `0.2`). -/
theorem update_colors_witness :
    ∃ B, update_step depthFrame2 infraredFrame2 = some B ∧
      ∀ x yy d y, x < depthFrame2.width → yy < depthFrame2.height →
        depthFrame2.data x yy = PixelKind.Z16 d →
        infraredFrame2.data x yy = PixelKind.Y8 y →
        1/20 < clamp ((d : ℚ) / 4000) 0 1 →
        B.infrared_data ((x * 640 + yy) * 4) = (y : ℚ) / 255 ∧
        B.infrared_data ((x * 640 + yy) * 4 + 1) = (y : ℚ) / 255 ∧
        B.infrared_data ((x * 640 + yy) * 4 + 2) = (y : ℚ) / 255 ∧
        B.infrared_data ((x * 640 + yy) * 4 + 3) = 1 :=
  update_colors depthFrame2 infraredFrame2 rfl rfl (by decide) (by decide)
    (by decide)

/-- Claim C9: the population step runs only on equally-sized frame pairs
(otherwise it panics), and within the 640×640 grid every height-buffer
index and colour-buffer index stays inside the buffers (the step completes
without any out-of-bounds panic). -/
theorem update_step_guard (df inf : Frame) :
    ((df.width ≠ inf.width ∨ df.height ≠ inf.height) →
      update_step df inf = none) ∧
    (df.width = inf.width → df.height = inf.height →
      df.width ≤ 640 → df.height ≤ 640 →
      (∀ x, x < df.width → ∀ yy, yy < df.height →
        (df.data x yy).isZ16 = true ∧ (inf.data x yy).isY8 = true) →
      (update_step df inf).isSome = true) ∧
    (∀ x yy, x < 640 → yy < 640 →
      x * 640 + yy < instance_number
        ∧ (x * 640 + yy) * 4 + 3 < instance_number * 4) := by
  refine ⟨?_, ?_, ?_⟩
  · intro h
    rw [update_step, if_pos h]
  · intro hweq hheq hw hh hty
    obtain ⟨B, hB, -, -, -, -⟩ := update_step_spec df inf hweq hheq hw hh hty
    rw [hB]
    rfl
  · intro x yy hx hyy
    unfold instance_number
    omega

/-- Witness for C9: a mismatched pair panics; a matched 1×1 pair succeeds. -/
theorem update_step_guard_witness :
    update_step depthFrameWide infraredFrame1 = none ∧
    (update_step depthFrame1 infraredFrame1).isSome = true ∧
    (0 * 640 + 0 < instance_number
      ∧ (0 * 640 + 0) * 4 + 3 < instance_number * 4) :=
  ⟨(update_step_guard depthFrameWide infraredFrame1).1 (Or.inl (by decide)),
   (update_step_guard depthFrame1 infraredFrame1).2.1 rfl rfl (by decide)
     (by decide) (by decide),
   (update_step_guard depthFrame1 infraredFrame1).2.2 0 0 (by decide)
     (by decide)⟩

/-- Interpolating between two equal byte values is the identity, whatever
the parameter. -/
theorem f32toU8_degenerate (a : ℕ) (t : ℚ) (h : a ≤ 255) :
    f32toU8 ((a : ℚ) + t * ((a : ℚ) - (a : ℚ))) = a := by
  rw [show (a : ℚ) + t * ((a : ℚ) - (a : ℚ)) = (a : ℚ) by ring,
    f32toU8_natCast a h]

/-- Every output of `jet_colormap` has some channel pinned at `0` or `255`:
in each ramp segment one channel is interpolated between equal endpoint
values. -/
theorem jet_colormap_has_extreme_component (v : ℚ) :
    (jet_colormap v).1 = 0 ∨ (jet_colormap v).2.1 = 255 ∨
    (jet_colormap v).2.2 = 0 ∨ (jet_colormap v).2.1 = 0 := by
  by_cases h1 : clamp v 0 1 < 1/4
  · left
    have hb : jet_colormap v
        = lerp_color (clamp v 0 1) 0 (0, 0, 255) (1/4) (0, 255, 255) := by
      simp only [jet_colormap]
      rw [if_pos h1]
    rw [hb]
    exact f32toU8_degenerate 0 _ (by norm_num)
  · by_cases h2 : clamp v 0 1 < 1/2
    · right; left
      have hb : jet_colormap v
          = lerp_color (clamp v 0 1) (1/4) (0, 255, 255) (1/2) (255, 255, 0) := by
        simp only [jet_colormap]
        rw [if_neg h1, if_pos h2]
      rw [hb]
      exact f32toU8_degenerate 255 _ le_rfl
    · by_cases h3 : clamp v 0 1 < 3/4
      · right; right; left
        have hb : jet_colormap v
            = lerp_color (clamp v 0 1) (1/2) (255, 255, 0) (3/4) (255, 0, 0) := by
          simp only [jet_colormap]
          rw [if_neg h1, if_neg h2, if_pos h3]
        rw [hb]
        exact f32toU8_degenerate 0 _ (by norm_num)
      · right; right; right
        have hb : jet_colormap v
            = lerp_color (clamp v 0 1) (4/5) (255, 0, 0) 1 (0, 0, 0) := by
          simp only [jet_colormap]
          rw [if_neg h1, if_neg h2, if_neg h3]
        rw [hb]
        exact f32toU8_degenerate 0 _ (by norm_num)

/-- `jet_colormap` never outputs the mid-grey `(128, 128, 128)`. -/
theorem jet_colormap_never_midgray (v : ℚ) :
    ¬ ((jet_colormap v).1 = 128 ∧ (jet_colormap v).2.1 = 128 ∧
      (jet_colormap v).2.2 = 128) := by
  rintro ⟨ha, hb, hc⟩
  rcases jet_colormap_has_extreme_component v with h | h | h | h <;> omega

/-- Claim C6 counterexample: on a retained pixel of depth 2000 and infrared
intensity 128, the 3D viewer stores the grey colour `(128/255, 128/255,
128/255)`, which is not `jet_colormap` of any input (scaled to `[0, 1]`):
the colour comes from the infrared intensity alone, not from the jet
ramp. -/
theorem update_colors_counterexample :
    ∃ B, update_step depthFrame1 infraredFrame1 = some B ∧
      B.infrared_data 0 = 128/255 ∧ B.infrared_data 1 = 128/255 ∧
      B.infrared_data 2 = 128/255 ∧
      ∀ v : ℚ, ¬ ((((jet_colormap v).1 : ℚ) / 255 = B.infrared_data 0) ∧
        (((jet_colormap v).2.1 : ℚ) / 255 = B.infrared_data 1) ∧
        (((jet_colormap v).2.2 : ℚ) / 255 = B.infrared_data 2)) := by
  obtain ⟨B, hB, w1, u1, w2, u2⟩ :=
    update_step_spec depthFrame1 infraredFrame1 rfl rfl (by decide) (by decide)
      (by decide)
  have hnd : normalized_depth depthFrame1 0 0
      = clamp (((2000 : ℕ) : ℚ) / 4000) 0 1 := rfl
  have hval : clamp (((2000 : ℕ) : ℚ) / 4000) 0 1 = 1/2 := by
    rw [show (((2000 : ℕ) : ℚ)) / 4000 = 1/2 by norm_num]
    exact clamp_eq_self (by norm_num) (by norm_num)
  have hret : 1/20 < normalized_depth depthFrame1 0 0 := by
    rw [hnd, hval]
    norm_num
  have hc0 := w2 0 0 (by decide) (by decide) 0 (by decide)
  rw [if_pos hret] at hc0
  norm_num [infraredFrame1, PixelKind.y8val] at hc0
  have hc1 := w2 0 0 (by decide) (by decide) 1 (by decide)
  rw [if_pos hret] at hc1
  norm_num [infraredFrame1, PixelKind.y8val] at hc1
  have hc2 := w2 0 0 (by decide) (by decide) 2 (by decide)
  rw [if_pos hret] at hc2
  norm_num [infraredFrame1, PixelKind.y8val] at hc2
  refine ⟨B, hB, hc0, hc1, hc2, ?_⟩
  intro v hcl
  obtain ⟨h1, h2, h3⟩ := hcl
  rw [hc0] at h1
  rw [hc1] at h2
  rw [hc2] at h3
  have e1 : (jet_colormap v).1 = 128 := by
    field_simp at h1
    exact_mod_cast h1
  have e2 : (jet_colormap v).2.1 = 128 := by
    field_simp at h2
    exact_mod_cast h2
  have e3 : (jet_colormap v).2.2 = 128 := by
    field_simp at h3
    exact_mod_cast h3
  exact jet_colormap_never_midgray v ⟨e1, e2, e3⟩

/-! ## Claim theorems: the translation grid -/

/-- The inner translation loop writes its column's pairs and touches
nothing else. -/
theorem td_loop_y_spec (x m : ℕ) (td : ℕ → ℚ) :
    (∀ y, y < m →
      td_loop_y x m td ((x * 640 + y) * 2) = ((x : ℚ) - 320) / 100 ∧
      td_loop_y x m td ((x * 640 + y) * 2 + 1) = ((y : ℚ) - 320) / 100) ∧
    (∀ j, (∀ y, y < m → j ≠ (x * 640 + y) * 2 ∧ j ≠ (x * 640 + y) * 2 + 1) →
      td_loop_y x m td j = td j) := by
  induction m with
  | zero =>
    exact ⟨fun y hy => absurd hy (Nat.not_lt_zero y), fun j h' => rfl⟩
  | succ m ih =>
    obtain ⟨ihw, ihu⟩ := ih
    constructor
    · intro y hy
      by_cases hym : y = m
      · subst hym
        constructor
        · simp only [td_loop_y]
          rw [Function.update_apply, if_neg (by omega), Function.update_apply,
            if_pos rfl]
        · simp only [td_loop_y]
          rw [Function.update_apply, if_pos rfl]
      · constructor
        · simp only [td_loop_y]
          rw [Function.update_apply, if_neg (by omega), Function.update_apply,
            if_neg (by omega)]
          exact (ihw y (by omega)).1
        · simp only [td_loop_y]
          rw [Function.update_apply, if_neg (by omega), Function.update_apply,
            if_neg (by omega)]
          exact (ihw y (by omega)).2
    · intro j hj
      simp only [td_loop_y]
      rw [Function.update_apply, if_neg (hj m (by omega)).2,
        Function.update_apply, if_neg (hj m (by omega)).1]
      exact ihu j (fun y hy => hj y (by omega))

/-- The outer translation loop writes all processed columns' pairs and
touches nothing else. -/
theorem td_loop_x_spec (n : ℕ) (td : ℕ → ℚ) :
    (∀ x y, x < n → y < 640 →
      td_loop_x n td ((x * 640 + y) * 2) = ((x : ℚ) - 320) / 100 ∧
      td_loop_x n td ((x * 640 + y) * 2 + 1) = ((y : ℚ) - 320) / 100) ∧
    (∀ j, (∀ x y, x < n → y < 640 →
        j ≠ (x * 640 + y) * 2 ∧ j ≠ (x * 640 + y) * 2 + 1) →
      td_loop_x n td j = td j) := by
  induction n with
  | zero =>
    exact ⟨fun x y hx => absurd hx (Nat.not_lt_zero x), fun j h' => rfl⟩
  | succ n ih =>
    obtain ⟨ihw, ihu⟩ := ih
    obtain ⟨lw, lu⟩ := td_loop_y_spec n 640 (td_loop_x n td)
    constructor
    · intro x y hx hy
      by_cases hxe : x = n
      · subst hxe
        simp only [td_loop_x]
        exact lw y hy
      · simp only [td_loop_x]
        constructor
        · rw [lu _ ?_]
          · exact (ihw x y (by omega) hy).1
          · intro y' hy'
            exact ⟨by omega, by omega⟩
        · rw [lu _ ?_]
          · exact (ihw x y (by omega) hy).2
          · intro y' hy'
            exact ⟨by omega, by omega⟩
    · intro j hj
      simp only [td_loop_x]
      rw [lu j (fun y hy => hj n y (by omega) hy)]
      exact ihu j (fun x y hx hy => hj x y (by omega) hy)

/-- Claim C7: the startup translation grid holds the pair
`((x - 320)/100, (y - 320)/100)` at buffer index `(x*640 + y)*2`, and every
component lies in `[-3.2, 3.19]`. -/
theorem translation_data_spec (x y : ℕ) (hx : x < 640) (hy : y < 640) :
    translation_data ((x * 640 + y) * 2) = ((x : ℚ) - 320) / 100 ∧
    translation_data ((x * 640 + y) * 2 + 1) = ((y : ℚ) - 320) / 100 ∧
    -(16/5) ≤ translation_data ((x * 640 + y) * 2) ∧
    translation_data ((x * 640 + y) * 2) ≤ 319/100 ∧
    -(16/5) ≤ translation_data ((x * 640 + y) * 2 + 1) ∧
    translation_data ((x * 640 + y) * 2 + 1) ≤ 319/100 := by
  obtain ⟨lw, lu⟩ := td_loop_x_spec 640 (fun _ => 0)
  have h := lw x y hx hy
  have hx0 : (0 : ℚ) ≤ (x : ℚ) := Nat.cast_nonneg x
  have hy0 : (0 : ℚ) ≤ (y : ℚ) := Nat.cast_nonneg y
  have hx639 : (x : ℚ) ≤ 639 := by
    have hb : x ≤ 639 := by omega
    exact_mod_cast hb
  have hy639 : (y : ℚ) ≤ 639 := by
    have hb : y ≤ 639 := by omega
    exact_mod_cast hb
  unfold translation_data
  refine ⟨h.1, h.2, ?_, ?_, ?_, ?_⟩
  · rw [h.1]; linarith
  · rw [h.1]; linarith
  · rw [h.2]; linarith
  · rw [h.2]; linarith

/-- Witness for C7 at the grid corner `(0, 0)`. -/
theorem translation_data_spec_witness :
    translation_data ((0 * 640 + 0) * 2) = (((0 : ℕ) : ℚ) - 320) / 100 ∧
    translation_data ((0 * 640 + 0) * 2 + 1) = (((0 : ℕ) : ℚ) - 320) / 100 ∧
    -(16/5) ≤ translation_data ((0 * 640 + 0) * 2) ∧
    translation_data ((0 * 640 + 0) * 2) ≤ 319/100 ∧
    -(16/5) ≤ translation_data ((0 * 640 + 0) * 2 + 1) ∧
    translation_data ((0 * 640 + 0) * 2 + 1) ≤ 319/100 :=
  translation_data_spec 0 0 (by norm_num) (by norm_num)

end RealSenseTools
